import Mathlib

/-!
Verification development for the statistical paper-trading service
(`app/bayesian_service.py`) and its ORM data model (`app/models.py`).

Numbers: Python floats are modelled as rationals (`ℚ`); the one genuinely
irrational quantity, `np.std(returns)` (a square root), is modelled in `ℝ`
via `Real.sqrt`.  Database and brokerage-API effects, and the exceptions
they can raise, are modelled by an `Oracle` record: each effectful primitive
the service touches is a field holding `Except String α` — `.error e` means
the primitive raised an exception with message `e`.  A `try/except` block in
the Python source becomes a `match` on the oracle field that maps `.error _`
to the handler's return value.
-/

/-- One investment row (`models.Investment`).  Only the columns the service
reads are kept; timestamps and display-only columns are omitted. -/
structure Investment where
  symbol : String
  quantity : ℚ
  purchase_price : ℚ
  current_price : ℚ
  current_value : ℚ
deriving DecidableEq

/-- A portfolio row (`models.Portfolio`) together with its `investments`
relationship. -/
structure Portfolio where
  id : ℕ
  investments : List Investment
deriving DecidableEq

/-- `Portfolio.calculate_total_value`: sum of `investment.current_value`
over the portfolio's investments. -/
def Portfolio.calculate_total_value (p : Portfolio) : ℚ :=
  (p.investments.map (fun i => i.current_value)).sum

/-- A trading-strategy row (`models.TradingStrategy`) with the columns the
service reads or writes.  The regression-parameter columns
(`alpha_mean`, …) are written only through the database commit modelled by
`Oracle.fitStrategyUpdate` and read by nothing verified here, so they are
omitted. -/
structure TradingStrategy where
  id : ℕ
  symbol : String
  is_active : Bool
  confidence_threshold : ℚ
  position_size : ℚ
  max_position_size : ℚ
  total_trades : ℕ
  winning_trades : ℕ
  portfolio : Portfolio
deriving DecidableEq

/-- `TradingStrategy.calculate_win_rate`: `0.0` when no trades, else
`winning_trades / total_trades * 100`. -/
def TradingStrategy.calculate_win_rate (s : TradingStrategy) : ℚ :=
  if s.total_trades = 0 then 0
  else ((s.winning_trades : ℚ) / (s.total_trades : ℚ)) * 100

/-- One OHLCV row, as stored in `models.MarketData` and as carried in the
DataFrame produced by `get_market_data` (columns open/high/low/close/volume). -/
structure PriceRow where
  open_price : ℚ
  high_price : ℚ
  low_price : ℚ
  close_price : ℚ
  volume : ℚ
deriving DecidableEq

/-- The buy/sell/hold action strings of the signal dictionary. -/
inductive TradeAction where
  | buy
  | sell
  | hold
deriving DecidableEq

/-- The signal dictionary built by `generate_trading_signal`.  The
`reasoning` entry is a formatted log string and is omitted. -/
structure Signal where
  symbol : String
  predicted_return : ℚ
  confidence : ℝ
  action : TradeAction

/-- A trade row (`models.Trade`) as constructed by `execute_paper_trade`.
`timestamp` and `pnl` (defaulted, never set by the service) are omitted. -/
structure Trade where
  symbol : String
  side : TradeAction
  quantity : ℚ
  price : ℚ
  status : String
  predicted_return : ℚ
  confidence : ℝ
  alpha_sample : ℚ
  beta_sample : ℚ
  strategy_id : ℕ
  portfolio_id : ℕ

/-- The effectful environment of one service call.  Each field is the
outcome of one database/API primitive for the symbol under consideration;
`.error e` models that primitive raising an exception with message `e`.
`apiBars` covers the Alpaca fetch *and* the subsequent row inserts and
commit (lines 46–87); `dbBars` is the `MarketData` query of the fallback
branch, already in chronological order (the source reverses the descending
query).  `fitStrategyUpdate` is the strategy-parameter lookup/commit inside
`fit_statistical_model`; `latestTradePrice` is
`trading_client.get_latest_trade`; `latestMarketRow` is the latest
`MarketData` row; `persistTrade` is the trade insert/commit;
`statsCommit` is the strategy-counter commit; `lookupStrategy` is
`TradingStrategy.query.get` inside `run_strategy`. -/
structure Oracle where
  hasDataClient : Bool
  apiBars : Except String (List PriceRow)
  dbBars : Except String (List PriceRow)
  fitStrategyUpdate : Except String Unit
  hasTradingClient : Bool
  latestTradePrice : Except String ℚ
  latestMarketRow : Except String (Option PriceRow)
  persistTrade : Except String Unit
  statsCommit : Except String Unit
  lookupStrategy : Except String (Option TradingStrategy)

/-- Python truthiness of the `strategy_id` argument of
`fit_statistical_model` (`if strategy_id:`): `None` and `0` are falsy. -/
def truthyId : Option ℕ → Bool
  | none => false
  | some n => n != 0

/-- `BayesianTradingService.get_market_data` (lines 43–110).  With a data
client, the fetched bars are stored and returned (an exception anywhere in
fetch/store is caught and yields `None`); without one, the stored rows are
returned, `None` when none exist. -/
def get_market_data (o : Oracle) (symbol : String) (days : ℕ) : Option (List PriceRow) :=
  if o.hasDataClient then
    match o.apiBars with
    | .ok bars => some bars
    | .error _ => none
  else
    match o.dbBars with
    | .ok rows => if rows.isEmpty then none else some rows
    | .error _ => none

/-- `BayesianTradingService.calculate_returns` (lines 112–119):
`np.diff` of the close column, `None` for `None` input or fewer than
2 rows.  `np.diff l` is `zipWith (fun a b => b - a) l l.tail`, i.e.
`out i = l (i+1) - l i`. -/
def calculate_returns (price_data : Option (List PriceRow)) : Option (List ℚ) :=
  match price_data with
  | none => none
  | some rows =>
    if rows.length < 2 then none
    else
      let prices := rows.map (fun r => r.close_price)
      some (List.zipWith (fun a b => b - a) prices prices.tail)

/-- Arithmetic mean of a list of rationals (`np.mean`). -/
def meanQ (l : List ℚ) : ℚ := l.sum / (l.length : ℚ)

/-- Population variance (`np.std(l) ** 2`, numpy default `ddof=0`). -/
def varQ (l : List ℚ) : ℚ := meanQ (l.map (fun x => (x - meanQ l) ^ 2))

/-- Centered sum of squares of the regressor. -/
def sxxQ (x : List ℚ) : ℚ := (x.map (fun xi => (xi - meanQ x) ^ 2)).sum

/-- Centered cross sum of regressor and response. -/
def sxyQ (x y : List ℚ) : ℚ :=
  (List.zipWith (fun xi yi => (xi - meanQ x) * (yi - meanQ y)) x y).sum

/-- Slope of `scipy.stats.linregress(x, y)`: ratio of the centered
cross-covariance to the centered variance of `x` (scipy computes both as
means, whose common factor cancels). -/
def linregressSlope (x y : List ℚ) : ℚ := sxyQ x y / sxxQ x

/-- Intercept of `scipy.stats.linregress(x, y)`:
`mean y - slope * mean x`. -/
def linregressIntercept (x y : List ℚ) : ℚ :=
  meanQ y - linregressSlope x y * meanQ x

/-- `np.arange(n)` as rationals: the day indices `0 .. n-1`. -/
def indices (n : ℕ) : List ℚ := (List.range n).map (fun i => (i : ℚ))

/-- The model dictionary returned by `fit_statistical_model`.  The unused
diagnostic entries `r_value`, `p_value`, `std_err` (read by no caller and
no claim) are omitted. -/
structure ModelParams where
  intercept : ℚ
  slope : ℚ
  mean_return : ℚ
  std_return : ℝ

/-- `BayesianTradingService.fit_statistical_model` (lines 121–158): `None`
for fewer than 10 returns, else the OLS line of the returns against
`np.arange(len(returns))` plus mean and standard deviation of the returns.
When `strategy_id` is truthy the strategy row is updated and committed
before returning; an exception there is caught and yields `None`. -/
noncomputable def fit_statistical_model (o : Oracle) (returns : List ℚ)
    (strategy_id : Option ℕ) : Option ModelParams :=
  if returns.length < 10 then none
  else
    let mean_return := meanQ returns
    let std_return : ℝ := Real.sqrt ((varQ returns : ℝ))
    let X := indices returns.length
    let slope := linregressSlope X returns
    let intercept := linregressIntercept X returns
    if truthyId strategy_id then
      match o.fitStrategyUpdate with
      | .error _ => none
      | .ok _ =>
        some { intercept := intercept, slope := slope,
               mean_return := mean_return, std_return := std_return }
    else
      some { intercept := intercept, slope := slope,
             mean_return := mean_return, std_return := std_return }

/-- `BayesianTradingService.predict_next_return` (lines 160–174):
`(None, None)` for a missing model, else
`(intercept + slope * next_day_index, std_return)`. -/
noncomputable def predict_next_return (model_params : Option ModelParams)
    (next_day_index : ℕ) : Option ℚ × Option ℝ :=
  match model_params with
  | none => (none, none)
  | some m => (some (m.intercept + m.slope * (next_day_index : ℚ)), some m.std_return)

/-- `BayesianTradingService.generate_trading_signal` (lines 176–224).
The source checks only `predicted_return is None`; were the confidence
`None` with a present prediction, the comparison against the threshold
would raise a `TypeError` caught by the enclosing handler, so the
`(some _, none)` branch also yields `none`. -/
noncomputable def generate_trading_signal (o : Oracle) (strategy : TradingStrategy)
    (symbol : String) : Option Signal :=
  match get_market_data o symbol 100 with
  | none => none
  | some market_data =>
    match calculate_returns (some market_data) with
    | none => none
    | some returns =>
      match fit_statistical_model o returns (some strategy.id) with
      | none => none
      | some model_params =>
        let next_day := returns.length
        match predict_next_return (some model_params) next_day with
        | (none, _) => none
        | (some _, none) => none
        | (some predicted_return, some confidence) =>
          if predicted_return > 0 ∧ confidence < (strategy.confidence_threshold : ℝ) then
            some { symbol := symbol, predicted_return := predicted_return,
                   confidence := confidence, action := TradeAction.buy }
          else if predicted_return < 0 ∧ confidence < (strategy.confidence_threshold : ℝ) then
            some { symbol := symbol, predicted_return := predicted_return,
                   confidence := confidence, action := TradeAction.sell }
          else
            some { symbol := symbol, predicted_return := predicted_return,
                   confidence := confidence, action := TradeAction.hold }

/-- The current-price lookup of `execute_paper_trade` (lines 232–246).
With a trading client, a failing `get_latest_trade` is caught by the inner
handler and falls back to the latest stored row; a failing row query
propagates (to the outer handler).  Without a client the stored row is
used directly; in either branch a missing row falls back to `100.0`. -/
def currentPriceE (o : Oracle) : Except String ℚ :=
  if o.hasTradingClient then
    match o.latestTradePrice with
    | .ok p => .ok p
    | .error _ =>
      match o.latestMarketRow with
      | .ok (some md) => .ok md.close_price
      | .ok none => .ok 100
      | .error e => .error e
  else
    match o.latestMarketRow with
    | .ok (some md) => .ok md.close_price
    | .ok none => .ok 100
    | .error e => .error e

/-- `BayesianTradingService.execute_paper_trade` (lines 226–286).  Returns
the recorded trade (`none` on hold/missing signal or any caught exception)
and the strategy with its counters as the in-memory object leaves them.
If the counter commit (line 279) raises, the trade row is already
committed but the function returns `None`; the in-memory counters remain
incremented, which the second component reflects. -/
def execute_paper_trade (o : Oracle) (strategy : TradingStrategy)
    (signal : Option Signal) : Option Trade × TradingStrategy :=
  match signal with
  | none => (none, strategy)
  | some sig =>
    if sig.action = TradeAction.hold then (none, strategy)
    else
      match currentPriceE o with
      | .error _ => (none, strategy)
      | .ok current_price =>
        let portfolio_value := strategy.portfolio.calculate_total_value
        let position_value := portfolio_value * strategy.position_size
        let quantity := position_value / current_price
        let trade : Trade :=
          { symbol := sig.symbol, side := sig.action, quantity := quantity,
            price := current_price, status := "filled",
            predicted_return := sig.predicted_return,
            confidence := sig.confidence,
            alpha_sample := 0, beta_sample := 0,
            strategy_id := strategy.id, portfolio_id := strategy.portfolio.id }
        match o.persistTrade with
        | .error _ => (none, strategy)
        | .ok _ =>
          let s1 := { strategy with total_trades := strategy.total_trades + 1 }
          let s2 :=
            if sig.action = TradeAction.buy ∧ sig.predicted_return > 0 then
              { s1 with winning_trades := s1.winning_trades + 1 }
            else if sig.action = TradeAction.sell ∧ sig.predicted_return < 0 then
              { s1 with winning_trades := s1.winning_trades + 1 }
            else s1
          match o.statsCommit with
          | .error _ => (none, s2)
          | .ok _ => (some trade, s2)

/-- `BayesianTradingService.run_strategy` (lines 288–312).  The updated
in-memory strategy is not part of the source's return value, so only the
signal/trade pair is returned. -/
noncomputable def run_strategy (o : Oracle) (strategy_id : ℕ) :
    Option (Signal × Option Trade) :=
  match o.lookupStrategy with
  | .error _ => none
  | .ok none => none
  | .ok (some strategy) =>
    if strategy.is_active then
      match generate_trading_signal o strategy strategy.symbol with
      | none => none
      | some signal =>
        if signal.action ≠ TradeAction.hold then
          some (signal, (execute_paper_trade o strategy (some signal)).1)
        else
          some (signal, none)
    else none

/-- Modelled from the spec: the claim for the signal decision compares "the
model's residual standard deviation" against the threshold.  The residual
standard deviation of the OLS line of `y` against the day indices is the
root mean square of the residuals `y i - (intercept + slope * i)` (whose
mean is zero for an OLS fit with intercept).  No function of the source
computes this quantity; it exists here only to compare the claim's wording
with the code's behaviour. -/
noncomputable def residualStd (y : List ℚ) : ℝ :=
  let X := indices y.length
  let a := linregressIntercept X y
  let b := linregressSlope X y
  Real.sqrt ((meanQ (List.zipWith (fun xi yi => (yi - (a + b * xi)) ^ 2) X y) : ℝ))

/-- A constant-close row used to build concrete histories. -/
def rowC (j : ℕ) : PriceRow :=
  { open_price := j, high_price := j, low_price := j, close_price := j, volume := 0 }

/-- Eleven stored rows with closes `0,1,…,10`: ten constant daily returns. -/
def goodRows : List PriceRow := (List.range 11).map rowC

/-- The returns of `goodRows`: ten ones. -/
def goodReturns : List ℚ := [1,1,1,1,1,1,1,1,1,1]

/-- A concrete investment worth 1000. -/
def inv1 : Investment :=
  { symbol := "AAPL", quantity := 10, purchase_price := 90,
    current_price := 100, current_value := 1000 }

/-- A concrete portfolio holding `inv1`; total value 1000. -/
def port1 : Portfolio := { id := 7, investments := [inv1] }

/-- A concrete active strategy: threshold 1, position fraction 1/10,
cap 1/5, no trades yet. -/
def strat1 : TradingStrategy :=
  { id := 1, symbol := "AAPL", is_active := true, confidence_threshold := 1,
    position_size := 1/10, max_position_size := 1/5,
    total_trades := 0, winning_trades := 0, portfolio := port1 }

/-- An environment where everything succeeds: no API clients, `goodRows`
stored, latest close 10. -/
def goodOracle : Oracle :=
  { hasDataClient := false, apiBars := .ok [], dbBars := .ok goodRows,
    fitStrategyUpdate := .ok (), hasTradingClient := false,
    latestTradePrice := .error "no client", latestMarketRow := .ok (some (rowC 10)),
    persistTrade := .ok (), statsCommit := .ok (), lookupStrategy := .ok (some strat1) }

/-- The signal `goodOracle` produces for `strat1`: constant returns give a
perfectly flat fit (slope 0, intercept 1, standard deviation 0), hence a
predicted return of 1 with confidence 0, i.e. a buy. -/
def sigGood : Signal :=
  { symbol := "AAPL", predicted_return := 1, confidence := 0, action := TradeAction.buy }

/-- The trade booked for `sigGood` under `goodOracle`:
1000 × 1/10 / 10 = 10 shares at the latest close 10. -/
def tradeGood : Trade :=
  { symbol := "AAPL", side := TradeAction.buy, quantity := 10, price := 10,
    status := "filled", predicted_return := 1, confidence := 0,
    alpha_sample := 0, beta_sample := 0, strategy_id := 1, portfolio_id := 7 }

/-- `strat1` after one winning trade. -/
def strat1After : TradingStrategy :=
  { strat1 with total_trades := 1, winning_trades := 1 }

/-- Eleven rows whose closes are the partial sums of `0,1,…,9`, so the
daily returns are exactly `0,1,…,9`: a steep upward trend that the OLS
line fits perfectly. -/
def trendRows : List PriceRow :=
  [rowC 0, rowC 0, rowC 1, rowC 3, rowC 6, rowC 10, rowC 15, rowC 21, rowC 28, rowC 36, rowC 45]

/-- The returns of `trendRows`. -/
def trendReturns : List ℚ := [0,1,2,3,4,5,6,7,8,9]

/-- The signal the service produces from `trendRows`: predicted return 10,
confidence `√(33/4) ≈ 2.87` (the standard deviation of the returns), which
is not below the threshold 1, so the action is hold — even though the OLS
fit is exact and the residual standard deviation is 0. -/
noncomputable def sigTrend : Signal :=
  { symbol := "AAPL", predicted_return := 10,
    confidence := Real.sqrt ((varQ trendReturns : ℝ)), action := TradeAction.hold }

/-- `goodOracle` with the trending history stored instead. -/
def trendOracle : Oracle :=
  { goodOracle with dbBars := .ok trendRows }

/-- Three stored rows: only two returns, fewer than the ten the fit needs. -/
def shortRows : List PriceRow := [rowC 0, rowC 1, rowC 2]

/-- `goodOracle` with only `shortRows` stored. -/
def shortOracle : Oracle :=
  { goodOracle with dbBars := .ok shortRows }

/-- An environment where every database/API primitive raises. -/
def errOracle : Oracle :=
  { hasDataClient := false, apiBars := .error "boom", dbBars := .error "boom",
    fitStrategyUpdate := .error "boom", hasTradingClient := false,
    latestTradePrice := .error "boom", latestMarketRow := .error "boom",
    persistTrade := .error "boom", statsCommit := .error "boom",
    lookupStrategy := .ok (some strat1) }

/-- `goodOracle` except that the strategy-parameter commit inside the fit
raises. -/
def fitErrOracle : Oracle :=
  { goodOracle with fitStrategyUpdate := .error "boom" }

/-- `goodOracle` except that no `MarketData` row exists at trade time. -/
def noRowOracle : Oracle :=
  { goodOracle with latestMarketRow := .ok none }

/-- `goodOracle` except that the trade insert/commit raises. -/
def persistErrOracle : Oracle :=
  { goodOracle with persistTrade := .error "boom" }

/-- `strat1` with a position fraction (1/2) far above its own cap (1/5). -/
def strat2 : TradingStrategy :=
  { strat1 with position_size := 1/2 }

/-- The trade booked for `sigGood` under `goodOracle` by `strat2`:
1000 × 1/2 / 10 = 50 shares, a 500 position against a 200 cap. -/
def tradeBig : Trade :=
  { tradeGood with quantity := 50 }

/-- `strat2` after its one winning trade. -/
def strat2After : TradingStrategy :=
  { strat2 with total_trades := 1, winning_trades := 1 }

/-- One run of the generate-then-execute body of `run_strategy`
(lines 296–302): the signal produced by the first environment is executed
under the second, and the strategy leaves with its updated counters. -/
noncomputable def stepStrategy (s : TradingStrategy) (step : Oracle × Oracle × String) :
    TradingStrategy :=
  (execute_paper_trade step.2.1 s (generate_trading_signal step.1 s step.2.2)).2

/-- Characterisation of a successful fit: the returned dictionary holds the
OLS line of the returns against `0 … n-1`, their mean, and their standard
deviation, and at least 10 returns were present. -/
lemma fit_spec (o : Oracle) (rs : List ℚ) (sid : Option ℕ) (m : ModelParams)
    (h : fit_statistical_model o rs sid = some m) :
    m.intercept = linregressIntercept (indices rs.length) rs ∧
    m.slope = linregressSlope (indices rs.length) rs ∧
    m.mean_return = meanQ rs ∧
    m.std_return = Real.sqrt ((varQ rs : ℝ)) ∧
    10 ≤ rs.length := by
  by_cases hlen : rs.length < 10
  · rw [fit_statistical_model, if_pos hlen] at h
    exact absurd h (by simp)
  · rw [fit_statistical_model, if_neg hlen] at h
    by_cases ht : truthyId sid = true
    · simp only [ht, if_true] at h
      cases hu : o.fitStrategyUpdate with
      | error e => rw [hu] at h; exact absurd h (by simp)
      | ok u =>
        rw [hu] at h
        simp only [Option.some.injEq] at h
        subst h
        exact ⟨rfl, rfl, rfl, rfl, by omega⟩
    · rw [if_neg ht] at h
      simp only [Option.some.injEq] at h
      subst h
      exact ⟨rfl, rfl, rfl, rfl, by omega⟩

lemma md_goodOracle : get_market_data goodOracle "AAPL" 100 = some goodRows := by
  simp [get_market_data, goodOracle, goodRows, rowC, List.range_succ]

lemma rs_goodRows : calculate_returns (some goodRows) = some goodReturns := by
  norm_num [calculate_returns, goodRows, goodReturns, rowC, List.range_succ]

lemma varQ_goodReturns : varQ goodReturns = 0 := by
  have h : meanQ goodReturns = 1 := by norm_num [meanQ, goodReturns]
  norm_num [varQ, goodReturns, h, meanQ]

lemma indices_ten : indices 10 = [0,1,2,3,4,5,6,7,8,9] := by
  simp [indices, List.range_succ]

lemma slope_goodReturns : linregressSlope (indices 10) goodReturns = 0 := by
  rw [indices_ten]
  norm_num [linregressSlope, sxyQ, sxxQ, meanQ, goodReturns]

lemma intercept_goodReturns : linregressIntercept (indices 10) goodReturns = 1 := by
  rw [linregressIntercept, indices_ten]
  rw [show linregressSlope ([0,1,2,3,4,5,6,7,8,9] : List ℚ) goodReturns = 0 from
    indices_ten ▸ slope_goodReturns]
  norm_num [meanQ, goodReturns]

lemma fit_goodReturns : fit_statistical_model goodOracle goodReturns (some strat1.id) =
    some { intercept := linregressIntercept (indices 10) goodReturns,
           slope := linregressSlope (indices 10) goodReturns,
           mean_return := meanQ goodReturns,
           std_return := Real.sqrt ((varQ goodReturns : ℝ)) } := by
  have hlen : goodReturns.length = 10 := by norm_num [goodReturns]
  rw [fit_statistical_model, hlen]
  norm_num [truthyId, strat1, goodOracle]

/-- The constant-returns environment yields a buy signal with predicted
return 1 and confidence 0. -/
lemma gen_goodOracle : generate_trading_signal goodOracle strat1 "AAPL" = some sigGood := by
  have hlen : goodReturns.length = 10 := by norm_num [goodReturns]
  simp only [generate_trading_signal, md_goodOracle, rs_goodRows, fit_goodReturns,
    predict_next_return, hlen, intercept_goodReturns, slope_goodReturns, varQ_goodReturns]
  norm_num [Real.sqrt_zero, sigGood, strat1]

/-- Executing `sigGood` under `goodOracle` books `tradeGood` and bumps both
counters. -/
lemma exec_goodOracle : execute_paper_trade goodOracle strat1 (some sigGood) =
    (some tradeGood, strat1After) := by
  norm_num [execute_paper_trade, currentPriceE, goodOracle, strat1, sigGood, rowC,
    tradeGood, strat1After, Portfolio.calculate_total_value, port1, inv1, Trade.mk.injEq,
    TradingStrategy.mk.injEq]
  decide

lemma md_trendOracle : get_market_data trendOracle "AAPL" 100 = some trendRows := by
  simp [get_market_data, trendOracle, goodOracle, trendRows]

lemma rs_trendRows : calculate_returns (some trendRows) = some trendReturns := by
  norm_num [calculate_returns, trendRows, trendReturns, rowC]

lemma varQ_trendReturns : varQ trendReturns = 33/4 := by
  have h : meanQ trendReturns = 9/2 := by norm_num [meanQ, trendReturns]
  norm_num [varQ, trendReturns, h, meanQ]

lemma slope_trendReturns : linregressSlope (indices 10) trendReturns = 1 := by
  rw [indices_ten]
  norm_num [linregressSlope, sxyQ, sxxQ, meanQ, trendReturns]

lemma intercept_trendReturns : linregressIntercept (indices 10) trendReturns = 0 := by
  rw [linregressIntercept, indices_ten]
  rw [show linregressSlope ([0,1,2,3,4,5,6,7,8,9] : List ℚ) trendReturns = 1 from
    indices_ten ▸ slope_trendReturns]
  norm_num [meanQ, trendReturns]

lemma fit_trendReturns : fit_statistical_model trendOracle trendReturns (some strat1.id) =
    some { intercept := linregressIntercept (indices 10) trendReturns,
           slope := linregressSlope (indices 10) trendReturns,
           mean_return := meanQ trendReturns,
           std_return := Real.sqrt ((varQ trendReturns : ℝ)) } := by
  have hlen : trendReturns.length = 10 := by norm_num [trendReturns]
  rw [fit_statistical_model, hlen]
  norm_num [truthyId, strat1, trendOracle, goodOracle]

/-- The returns' standard deviation `√(33/4)` is not below the threshold 1. -/
lemma conf_trend_not_below :
    ¬ (Real.sqrt ((varQ trendReturns : ℝ)) < ((strat1.confidence_threshold : ℚ) : ℝ)) := by
  rw [varQ_trendReturns]
  simp only [strat1]
  push_cast
  rw [not_lt, show (1:ℝ) = Real.sqrt 1 from (Real.sqrt_one).symm]
  apply Real.sqrt_le_sqrt
  norm_num

/-- The trending environment yields a hold signal: the predicted return 10
is positive but the confidence `√(33/4)` is not below the threshold. -/
lemma gen_trendOracle : generate_trading_signal trendOracle strat1 "AAPL" = some sigTrend := by
  have hlen : trendReturns.length = 10 := by norm_num [trendReturns]
  simp only [generate_trading_signal, md_trendOracle, rs_trendRows, fit_trendReturns,
    predict_next_return, hlen, intercept_trendReturns, slope_trendReturns]
  split_ifs with h1 h2
  · exact absurd h1.2 conf_trend_not_below
  · exfalso
    have := h2.1
    norm_num at this
  · simp [sigTrend]

/-- The OLS line fits `0,1,…,9` exactly, so the residual standard deviation
is zero. -/
lemma residualStd_trend : residualStd trendReturns = 0 := by
  have hlen : trendReturns.length = 10 := by norm_num [trendReturns]
  have ha : linregressIntercept ([0,1,2,3,4,5,6,7,8,9] : List ℚ)
      ([0,1,2,3,4,5,6,7,8,9] : List ℚ) = 0 := by
    have h := intercept_trendReturns
    rwa [indices_ten, show trendReturns = [0,1,2,3,4,5,6,7,8,9] from rfl] at h
  have hb : linregressSlope ([0,1,2,3,4,5,6,7,8,9] : List ℚ)
      ([0,1,2,3,4,5,6,7,8,9] : List ℚ) = 1 := by
    have h := slope_trendReturns
    rwa [indices_ten, show trendReturns = [0,1,2,3,4,5,6,7,8,9] from rfl] at h
  rw [residualStd]
  simp only [hlen, indices_ten]
  norm_num [meanQ, ha, hb, show trendReturns = [0,1,2,3,4,5,6,7,8,9] from rfl]

/-- C1 (amended): for every strategy and every environment in which a signal
is produced, the signal's confidence value is the standard deviation of the
computed returns (`np.std(returns)`, not the residual standard deviation),
and `generate_trading_signal` chooses buy exactly when the predicted return
is positive and that confidence is strictly below the strategy's
`confidence_threshold`, sell exactly when the predicted return is negative
and that confidence is strictly below the threshold, and hold in every
other case. -/
theorem C1_signal_action_iff (o : Oracle) (strategy : TradingStrategy)
    (symbol : String) (sig : Signal)
    (h : generate_trading_signal o strategy symbol = some sig) :
    (∃ md rs, get_market_data o symbol 100 = some md ∧
        calculate_returns (some md) = some rs ∧
        sig.confidence = Real.sqrt ((varQ rs : ℝ))) ∧
    (sig.action = TradeAction.buy ↔
        sig.predicted_return > 0 ∧
          sig.confidence < (strategy.confidence_threshold : ℝ)) ∧
    (sig.action = TradeAction.sell ↔
        sig.predicted_return < 0 ∧
          sig.confidence < (strategy.confidence_threshold : ℝ)) ∧
    (sig.action = TradeAction.hold ↔
        ¬(sig.predicted_return > 0 ∧
            sig.confidence < (strategy.confidence_threshold : ℝ)) ∧
        ¬(sig.predicted_return < 0 ∧
            sig.confidence < (strategy.confidence_threshold : ℝ))) := by
  cases hmd : get_market_data o symbol 100 with
  | none =>
    simp only [generate_trading_signal, hmd] at h
    exact absurd h (by simp)
  | some md =>
  cases hrs : calculate_returns (some md) with
  | none =>
    simp only [generate_trading_signal, hmd, hrs] at h
    exact absurd h (by simp)
  | some rs =>
  cases hfit : fit_statistical_model o rs (some strategy.id) with
  | none =>
    simp only [generate_trading_signal, hmd, hrs, hfit] at h
    exact absurd h (by simp)
  | some m =>
  obtain ⟨hia, hsl, hme, hstd, hlen⟩ := fit_spec o rs (some strategy.id) m hfit
  simp only [generate_trading_signal, hmd, hrs, hfit, predict_next_return] at h
  split_ifs at h with h1 h2
  · simp only [Option.some.injEq] at h
    have hact : sig.action = TradeAction.buy := (congrArg Signal.action h).symm
    have hpr : sig.predicted_return = m.intercept + m.slope * (rs.length : ℚ) :=
      (congrArg Signal.predicted_return h).symm
    have hcf : sig.confidence = m.std_return := (congrArg Signal.confidence h).symm
    refine ⟨⟨md, rs, rfl, hrs, hcf.trans hstd⟩, ?_, ?_, ?_⟩
    · rw [hact, hpr, hcf]
      exact iff_of_true rfl h1
    · rw [hact, hpr, hcf]
      exact iff_of_false (by simp) (by rintro ⟨hneg, _⟩; exact absurd h1.1 (by linarith))
    · rw [hact, hpr, hcf]
      exact iff_of_false (by simp) (by rintro ⟨hn, _⟩; exact hn h1)
  · simp only [Option.some.injEq] at h
    have hact : sig.action = TradeAction.sell := (congrArg Signal.action h).symm
    have hpr : sig.predicted_return = m.intercept + m.slope * (rs.length : ℚ) :=
      (congrArg Signal.predicted_return h).symm
    have hcf : sig.confidence = m.std_return := (congrArg Signal.confidence h).symm
    refine ⟨⟨md, rs, rfl, hrs, hcf.trans hstd⟩, ?_, ?_, ?_⟩
    · rw [hact, hpr, hcf]
      exact iff_of_false (by simp) (by rintro ⟨hpos, _⟩; exact absurd h2.1 (by linarith))
    · rw [hact, hpr, hcf]
      exact iff_of_true rfl h2
    · rw [hact, hpr, hcf]
      exact iff_of_false (by simp) (by rintro ⟨_, hn⟩; exact hn h2)
  · simp only [Option.some.injEq] at h
    have hact : sig.action = TradeAction.hold := (congrArg Signal.action h).symm
    have hpr : sig.predicted_return = m.intercept + m.slope * (rs.length : ℚ) :=
      (congrArg Signal.predicted_return h).symm
    have hcf : sig.confidence = m.std_return := (congrArg Signal.confidence h).symm
    refine ⟨⟨md, rs, rfl, hrs, hcf.trans hstd⟩, ?_, ?_, ?_⟩
    · rw [hact, hpr, hcf]
      exact iff_of_false (by simp) h1
    · rw [hact, hpr, hcf]
      exact iff_of_false (by simp) h2
    · rw [hact, hpr, hcf]
      exact iff_of_true rfl ⟨h1, h2⟩

/-- C1 is false as stated: on the stored history `trendRows` the returns
`0,1,…,9` lie exactly on the OLS line, so the residual standard deviation
is 0, strictly below the threshold 1, and the predicted return 10 is
positive — yet the service holds, because the quantity it actually
compares with the threshold is the standard deviation of the returns,
`√(33/4) ≈ 2.87`. -/
theorem C1_counterexample :
    calculate_returns (get_market_data trendOracle "AAPL" 100) = some trendReturns ∧
    generate_trading_signal trendOracle strat1 "AAPL" = some sigTrend ∧
    sigTrend.predicted_return > 0 ∧
    residualStd trendReturns < ((strat1.confidence_threshold : ℚ) : ℝ) ∧
    sigTrend.action ≠ TradeAction.buy := by
  refine ⟨?_, gen_trendOracle, ?_, ?_, ?_⟩
  · rw [md_trendOracle]
    exact rs_trendRows
  · norm_num [sigTrend]
  · rw [residualStd_trend]
    norm_num [strat1]
  · simp [sigTrend]

/-- Witness for C1 at a concrete input: the constant-returns environment
produces the buy signal `sigGood`, and the amended characterisation holds
for it. -/
theorem C1_witness :
    generate_trading_signal goodOracle strat1 "AAPL" = some sigGood ∧
    (sigGood.action = TradeAction.buy ↔
        sigGood.predicted_return > 0 ∧
          sigGood.confidence < ((strat1.confidence_threshold : ℚ) : ℝ)) :=
  ⟨gen_goodOracle,
    (C1_signal_action_iff goodOracle strat1 "AAPL" sigGood gen_goodOracle).2.1⟩

/-- C2: for every returns list of length strictly less than 10 the fit
produces no model, and consequently a pipeline whose computed returns are
that list produces no signal. -/
theorem C2_short_returns_no_signal (rs : List ℚ) (h : rs.length < 10) :
    (∀ (o : Oracle) (sid : Option ℕ), fit_statistical_model o rs sid = none) ∧
    (∀ (o : Oracle) (s : TradingStrategy) (symbol : String) (md : List PriceRow),
        get_market_data o symbol 100 = some md →
        calculate_returns (some md) = some rs →
        generate_trading_signal o s symbol = none) := by
  have hfit : ∀ (o : Oracle) (sid : Option ℕ), fit_statistical_model o rs sid = none := by
    intro o sid
    rw [fit_statistical_model, if_pos h]
  refine ⟨hfit, ?_⟩
  intro o s symbol md hmd hrs
  simp only [generate_trading_signal, hmd, hrs, hfit o (some s.id)]

/-- Witness for C2 at a concrete input: three stored rows yield the two
returns `[1, 1]`, the fit aborts, and no signal is produced. -/
theorem C2_witness :
    ([(1:ℚ), 1].length < 10) ∧
    fit_statistical_model shortOracle [(1:ℚ), 1] (some 1) = none ∧
    generate_trading_signal shortOracle strat1 "AAPL" = none := by
  have hlen : ([(1:ℚ), 1].length < 10) := by norm_num
  have hmd : get_market_data shortOracle "AAPL" 100 = some shortRows := by
    simp [get_market_data, shortOracle, goodOracle, shortRows]
  have hrs : calculate_returns (some shortRows) = some [(1:ℚ), 1] := by
    norm_num [calculate_returns, shortRows, rowC]
  exact ⟨hlen, (C2_short_returns_no_signal [(1:ℚ), 1] hlen).1 shortOracle (some 1),
    (C2_short_returns_no_signal [(1:ℚ), 1] hlen).2 shortOracle strat1 "AAPL"
      shortRows hmd hrs⟩

/-- C3: every recorded trade's quantity equals the portfolio value — the
sum of the current values of the portfolio's investments — times the
strategy's position_size fraction, divided by the trade's (current)
price. -/
theorem C3_position_sizing (o : Oracle) (s : TradingStrategy) (sig : Signal)
    (t : Trade) (s' : TradingStrategy)
    (h : execute_paper_trade o s (some sig) = (some t, s')) :
    t.quantity =
      ((s.portfolio.investments.map (fun i => i.current_value)).sum
        * s.position_size) / t.price := by
  simp only [execute_paper_trade] at h
  by_cases ha : sig.action = TradeAction.hold
  · rw [if_pos ha] at h
    exact absurd (congrArg Prod.fst h) (by simp)
  · rw [if_neg ha] at h
    cases hp : currentPriceE o with
    | error e =>
      simp only [hp] at h
      exact absurd (congrArg Prod.fst h) (by simp)
    | ok p =>
      simp only [hp] at h
      cases hpt : o.persistTrade with
      | error e =>
        simp only [hpt] at h
        exact absurd (congrArg Prod.fst h) (by simp)
      | ok u =>
        simp only [hpt] at h
        cases hsc : o.statsCommit with
        | error e =>
          simp only [hsc] at h
          exact absurd (congrArg Prod.fst h) (by simp)
        | ok v =>
          simp only [hsc] at h
          have ht := congrArg Prod.fst h
          simp only [Option.some.injEq] at ht
          subst ht
          rfl

/-- Witness for C3 at a concrete input: the trade booked by `goodOracle`
for `strat1` has quantity 1000 × 1/10 / 10 = 10. -/
theorem C3_witness :
    execute_paper_trade goodOracle strat1 (some sigGood) = (some tradeGood, strat1After) ∧
    tradeGood.quantity =
      ((strat1.portfolio.investments.map (fun i => i.current_value)).sum
        * strat1.position_size) / tradeGood.price :=
  ⟨exec_goodOracle,
    C3_position_sizing goodOracle strat1 sigGood tradeGood strat1After exec_goodOracle⟩

/-- C5: whenever a signal is produced, its predicted return equals
`intercept + slope * n`, where intercept and slope are the closed-form OLS
fit of the computed returns against the day indices `0 … n-1` and the next
index is `n`, the number of return observations. -/
theorem C5_prediction_formula (o : Oracle) (s : TradingStrategy) (symbol : String)
    (md : List PriceRow) (rs : List ℚ) (sig : Signal)
    (hmd : get_market_data o symbol 100 = some md)
    (hrs : calculate_returns (some md) = some rs)
    (h : generate_trading_signal o s symbol = some sig) :
    sig.predicted_return =
      linregressIntercept (indices rs.length) rs
        + linregressSlope (indices rs.length) rs * (rs.length : ℚ) := by
  cases hfit : fit_statistical_model o rs (some s.id) with
  | none =>
    simp only [generate_trading_signal, hmd, hrs, hfit] at h
    exact absurd h (by simp)
  | some m =>
  obtain ⟨hia, hsl, hme, hstd, hlen⟩ := fit_spec o rs (some s.id) m hfit
  simp only [generate_trading_signal, hmd, hrs, hfit, predict_next_return] at h
  split_ifs at h with h1 h2 <;>
    simp only [Option.some.injEq] at h <;>
    exact (congrArg Signal.predicted_return h).symm.trans (by rw [hia, hsl])

/-- Witness for C5 at a concrete input: the constant-returns signal has
predicted return `intercept + slope * 10` for returns of length 10. -/
theorem C5_witness :
    generate_trading_signal goodOracle strat1 "AAPL" = some sigGood ∧
    sigGood.predicted_return =
      linregressIntercept (indices goodReturns.length) goodReturns
        + linregressSlope (indices goodReturns.length) goodReturns
          * (goodReturns.length : ℚ) :=
  ⟨gen_goodOracle,
    C5_prediction_formula goodOracle strat1 "AAPL" goodRows goodReturns sigGood
      md_goodOracle rs_goodRows gen_goodOracle⟩

/-- C6: with a missing signal or a hold action no trade is recorded and the
strategy is untouched; with a buy or sell action and no exception in price
lookup or persistence, exactly one trade is recorded, with status "filled",
side equal to the signal's action, and the signal's predicted return and
confidence stamped on it. -/
theorem C6_trade_recording (o : Oracle) (s : TradingStrategy) (sig : Signal) :
    execute_paper_trade o s none = (none, s) ∧
    (sig.action = TradeAction.hold → execute_paper_trade o s (some sig) = (none, s)) ∧
    (∀ p, sig.action ≠ TradeAction.hold → currentPriceE o = .ok p →
      o.persistTrade = .ok () → o.statsCommit = .ok () →
      ∃ t s', execute_paper_trade o s (some sig) = (some t, s') ∧
        t.status = "filled" ∧ t.side = sig.action ∧
        t.predicted_return = sig.predicted_return ∧
        t.confidence = sig.confidence ∧ t.price = p) := by
  refine ⟨rfl, ?_, ?_⟩
  · intro ha
    simp only [execute_paper_trade, if_pos ha]
  · intro p ha hp hpt hsc
    refine ⟨Trade.mk sig.symbol sig.action
        (s.portfolio.calculate_total_value * s.position_size / p) p "filled"
        sig.predicted_return sig.confidence 0 0 s.id s.portfolio.id,
      (execute_paper_trade o s (some sig)).2, ?_, rfl, rfl, rfl, rfl, rfl⟩
    rw [Prod.ext_iff]
    refine ⟨?_, rfl⟩
    simp only [execute_paper_trade, if_neg ha, hp, hpt, hsc]

/-- Witness for C6 at a concrete input: `sigGood` is a buy, all primitives
succeed, and the booked trade carries status "filled", side buy, and the
signal's prediction and confidence. -/
theorem C6_witness :
    sigGood.action ≠ TradeAction.hold ∧
    (∃ t s', execute_paper_trade goodOracle strat1 (some sigGood) = (some t, s') ∧
      t.status = "filled" ∧ t.side = sigGood.action ∧
      t.predicted_return = sigGood.predicted_return ∧
      t.confidence = sigGood.confidence ∧ t.price = 10) :=
  ⟨by decide,
    (C6_trade_recording goodOracle strat1 sigGood).2.2 10 (by decide)
      (by norm_num [currentPriceE, goodOracle, rowC]) rfl rfl⟩

/-- C7: for at least two rows, `calculate_returns` yields the first
differences of the closing prices — `n` rows yield exactly `n - 1` returns
and the i-th return is `close (i+1) - close i`; for fewer than two rows or
a `None` input it yields `None`. -/
theorem C7_returns_are_first_differences :
    calculate_returns none = none ∧
    (∀ rows : List PriceRow, rows.length < 2 → calculate_returns (some rows) = none) ∧
    (∀ rows : List PriceRow, 2 ≤ rows.length →
      ∃ rs, calculate_returns (some rows) = some rs ∧
        rs.length = rows.length - 1 ∧
        ∀ (i : ℕ) (h1 : i < rs.length) (h2 : i + 1 < rows.length) (h3 : i < rows.length),
          rs.get ⟨i, h1⟩ =
            (rows.get ⟨i + 1, h2⟩).close_price - (rows.get ⟨i, h3⟩).close_price) := by
  refine ⟨rfl, ?_, ?_⟩
  · intro rows h
    simp only [calculate_returns, if_pos h]
  · intro rows h
    have hnot : ¬ rows.length < 2 := by omega
    refine ⟨List.zipWith (fun a b => b - a) (rows.map (fun r => r.close_price))
        (rows.map (fun r => r.close_price)).tail,
      by simp only [calculate_returns, if_neg hnot], ?_, ?_⟩
    · simp only [List.length_zipWith, List.length_tail, List.length_map]
      omega
    · intro i h1 h2 h3
      simp only [List.get_eq_getElem, List.getElem_zipWith, List.getElem_tail,
        List.getElem_map]

/-- Witness for C7 at concrete inputs: two rows with closes 3 and 8 give
the single return 5; one row gives `None`. -/
theorem C7_witness :
    (2 ≤ ([rowC 3, rowC 8] : List PriceRow).length) ∧
    (∃ rs, calculate_returns (some [rowC 3, rowC 8]) = some rs ∧
      rs.length = ([rowC 3, rowC 8] : List PriceRow).length - 1) ∧
    (([rowC 5] : List PriceRow).length < 2) ∧
    calculate_returns (some [rowC 5]) = none := by
  have h2 : (2 ≤ ([rowC 3, rowC 8] : List PriceRow).length) := by norm_num
  have h1 : (([rowC 5] : List PriceRow).length < 2) := by norm_num
  obtain ⟨rs, hrs, hlen, _⟩ := C7_returns_are_first_differences.2.2 [rowC 3, rowC 8] h2
  exact ⟨h2, ⟨rs, hrs, hlen⟩, h1,
    C7_returns_are_first_differences.2.1 [rowC 5] h1⟩

/-- Executing `sigGood` under `goodOracle` with the oversized `strat2`
books `tradeBig`: 50 shares at 10, a 500 position. -/
lemma exec_strat2 : execute_paper_trade goodOracle strat2 (some sigGood) =
    (some tradeBig, strat2After) := by
  norm_num [execute_paper_trade, currentPriceE, goodOracle, strat2, strat1, sigGood,
    rowC, tradeBig, tradeGood, strat2After, Portfolio.calculate_total_value, port1,
    inv1, Trade.mk.injEq, TradingStrategy.mk.injEq]
  decide

/-- C9: `execute_paper_trade` never reads `max_position_size` — two
strategies differing only in that field produce identical trades — and the
sized position can exceed the cap: with `strat2` (fraction 1/2, cap 1/5)
the booked position is worth 500 against a cap of 200. -/
theorem C9_max_position_size_unused :
    (∀ (o : Oracle) (s : TradingStrategy) (m : ℚ) (sig : Option Signal),
      (execute_paper_trade o { s with max_position_size := m } sig).1 =
        (execute_paper_trade o s sig).1) ∧
    (execute_paper_trade goodOracle strat2 (some sigGood)).1 = some tradeBig ∧
    tradeBig.quantity * tradeBig.price >
      strat2.max_position_size * strat2.portfolio.calculate_total_value := by
  refine ⟨?_, ?_, ?_⟩
  · intro o s m sig
    cases sig with
    | none => rfl
    | some sig =>
      by_cases ha : sig.action = TradeAction.hold
      · simp only [execute_paper_trade, if_pos ha]
      · simp only [execute_paper_trade, if_neg ha]
        cases hp : currentPriceE o with
        | error e => simp only [hp]
        | ok p =>
          simp only [hp]
          cases hpt : o.persistTrade with
          | error e => simp only [hpt]
          | ok u =>
            simp only [hpt]
            cases hsc : o.statsCommit with
            | error e => simp only [hsc]
            | ok v => simp only [hsc]
  · rw [exec_strat2]
  · norm_num [tradeBig, tradeGood, strat2, strat1, Portfolio.calculate_total_value,
      port1, inv1]

/-- C10: with no trading client configured and no stored `MarketData` row,
`execute_paper_trade` does not fail: it falls back to a current price of
100.0 and still books a filled trade at that price. -/
theorem C10_fallback_price_100 (o : Oracle) (s : TradingStrategy) (sig : Signal)
    (h1 : o.hasTradingClient = false) (h2 : o.latestMarketRow = .ok none)
    (h3 : o.persistTrade = .ok ()) (h4 : o.statsCommit = .ok ())
    (h5 : sig.action ≠ TradeAction.hold) :
    ∃ t s', execute_paper_trade o s (some sig) = (some t, s') ∧
      t.price = 100 ∧ t.status = "filled" := by
  have hp : currentPriceE o = .ok 100 := by
    simp only [currentPriceE, h1, h2]
    rfl
  refine ⟨Trade.mk sig.symbol sig.action
      (s.portfolio.calculate_total_value * s.position_size / 100) 100 "filled"
      sig.predicted_return sig.confidence 0 0 s.id s.portfolio.id,
    (execute_paper_trade o s (some sig)).2, ?_, rfl, rfl⟩
  rw [Prod.ext_iff]
  refine ⟨?_, rfl⟩
  simp only [execute_paper_trade, if_neg h5, hp, h3, h4]

/-- Witness for C10 at a concrete input: under `noRowOracle` the buy signal
`sigGood` books a filled trade at price 100. -/
theorem C10_witness :
    noRowOracle.hasTradingClient = false ∧
    noRowOracle.latestMarketRow = .ok none ∧
    (∃ t s', execute_paper_trade noRowOracle strat1 (some sigGood) = (some t, s') ∧
      t.price = 100 ∧ t.status = "filled") :=
  ⟨rfl, rfl,
    C10_fallback_price_100 noRowOracle strat1 sigGood rfl rfl rfl rfl (by decide)⟩

/-- C4: an exception in the market-data fetch, in the fit's strategy-update
commit, or in trade persistence is caught where it occurs: the function in
which it is raised returns `None` to its caller (for `execute_paper_trade`,
a pair with no trade and the strategy unchanged), the exception never
propagates, and the outcome does not depend on the error value `e` — there
is no retry and no distinction between failure kinds.  Fetch and fit
failures therefore also surface as `None` from `generate_trading_signal`
and `run_strategy`. -/
theorem C4_exceptions_surface_as_none (e : String) :
    (∀ (o : Oracle) (symbol : String) (days : ℕ),
        o.hasDataClient = false → o.dbBars = .error e →
        get_market_data o symbol days = none) ∧
    (∀ (o : Oracle) (symbol : String) (days : ℕ),
        o.hasDataClient = true → o.apiBars = .error e →
        get_market_data o symbol days = none) ∧
    (∀ (o : Oracle) (rs : List ℚ) (sid : Option ℕ),
        truthyId sid = true → o.fitStrategyUpdate = .error e →
        fit_statistical_model o rs sid = none) ∧
    (∀ (o : Oracle) (s : TradingStrategy) (symbol : String),
        o.hasDataClient = false → o.dbBars = .error e →
        generate_trading_signal o s symbol = none) ∧
    (∀ (o : Oracle) (s : TradingStrategy) (symbol : String),
        o.hasDataClient = true → o.apiBars = .error e →
        generate_trading_signal o s symbol = none) ∧
    (∀ (o : Oracle) (s : TradingStrategy) (symbol : String),
        s.id ≠ 0 → o.fitStrategyUpdate = .error e →
        generate_trading_signal o s symbol = none) ∧
    (∀ (o : Oracle) (s : TradingStrategy) (sig : Option Signal),
        o.persistTrade = .error e →
        execute_paper_trade o s sig = (none, s)) ∧
    (∀ (o : Oracle) (sid : ℕ),
        o.hasDataClient = false → o.dbBars = .error e →
        run_strategy o sid = none) ∧
    (∀ (o : Oracle) (sid : ℕ),
        (∀ s, o.lookupStrategy = .ok (some s) → s.id ≠ 0) →
        o.fitStrategyUpdate = .error e →
        run_strategy o sid = none) := by
  have hget1 : ∀ (o : Oracle) (symbol : String) (days : ℕ),
      o.hasDataClient = false → o.dbBars = .error e →
      get_market_data o symbol days = none := by
    intro o symbol days h1 h2
    simp [get_market_data, h1, h2]
  have hget2 : ∀ (o : Oracle) (symbol : String) (days : ℕ),
      o.hasDataClient = true → o.apiBars = .error e →
      get_market_data o symbol days = none := by
    intro o symbol days h1 h2
    simp [get_market_data, h1, h2]
  have hfit3 : ∀ (o : Oracle) (rs : List ℚ) (sid : Option ℕ),
      truthyId sid = true → o.fitStrategyUpdate = .error e →
      fit_statistical_model o rs sid = none := by
    intro o rs sid ht h2
    by_cases hlen : rs.length < 10
    · rw [fit_statistical_model, if_pos hlen]
    · rw [fit_statistical_model, if_neg hlen]
      simp [ht, h2]
  have hgen_nofetch : ∀ (o : Oracle) (s : TradingStrategy) (symbol : String),
      get_market_data o symbol 100 = none →
      generate_trading_signal o s symbol = none := by
    intro o s symbol hmd
    simp [generate_trading_signal, hmd]
  have hgen_nofit : ∀ (o : Oracle) (s : TradingStrategy) (symbol : String),
      (∀ rs, fit_statistical_model o rs (some s.id) = none) →
      generate_trading_signal o s symbol = none := by
    intro o s symbol hf
    cases hmd : get_market_data o symbol 100 with
    | none => simp [generate_trading_signal, hmd]
    | some md =>
      cases hrs : calculate_returns (some md) with
      | none => simp [generate_trading_signal, hmd, hrs]
      | some rs => simp [generate_trading_signal, hmd, hrs, hf rs]
  have htruthy : ∀ (s : TradingStrategy), s.id ≠ 0 → truthyId (some s.id) = true := by
    intro s hid
    simp [truthyId]
    exact hid
  have hgen6 : ∀ (o : Oracle) (s : TradingStrategy) (symbol : String),
      s.id ≠ 0 → o.fitStrategyUpdate = .error e →
      generate_trading_signal o s symbol = none := by
    intro o s symbol hid h2
    exact hgen_nofit o s symbol (fun rs => hfit3 o rs (some s.id) (htruthy s hid) h2)
  have hexec7 : ∀ (o : Oracle) (s : TradingStrategy) (sig : Option Signal),
      o.persistTrade = .error e →
      execute_paper_trade o s sig = (none, s) := by
    intro o s sig h2
    cases sig with
    | none => rfl
    | some sg =>
      by_cases ha : sg.action = TradeAction.hold
      · simp only [execute_paper_trade, if_pos ha]
      · simp only [execute_paper_trade, if_neg ha]
        cases hp : currentPriceE o with
        | error er => simp only [hp]
        | ok p => simp only [hp, h2]
  have hrun_gen : ∀ (o : Oracle) (sid : ℕ),
      (∀ s, o.lookupStrategy = .ok (some s) →
        generate_trading_signal o s s.symbol = none) →
      run_strategy o sid = none := by
    intro o sid hg
    cases hl : o.lookupStrategy with
    | error er => simp [run_strategy, hl]
    | ok os =>
      cases os with
      | none => simp [run_strategy, hl]
      | some s =>
        by_cases hact : s.is_active
        · simp [run_strategy, hl, hact, hg s hl]
        · simp [run_strategy, hl, hact]
  refine ⟨hget1, hget2, hfit3, ?_, ?_, hgen6, hexec7, ?_, ?_⟩
  · intro o s symbol h1 h2
    exact hgen_nofetch o s symbol (hget1 o symbol 100 h1 h2)
  · intro o s symbol h1 h2
    exact hgen_nofetch o s symbol (hget2 o symbol 100 h1 h2)
  · intro o sid h1 h2
    exact hrun_gen o sid
      (fun s _ => hgen_nofetch o s s.symbol (hget1 o s.symbol 100 h1 h2))
  · intro o sid hids h2
    exact hrun_gen o sid (fun s hl => hgen6 o s s.symbol (hids s hl) h2)

/-- Witness for C4 at concrete inputs: with every primitive raising
"boom", fetch, fit, signal generation and the whole strategy run yield
`None`; a failing fit commit alone kills the signal; a failing trade
persist alone makes `execute_paper_trade` return no trade and leave the
strategy untouched. -/
theorem C4_witness :
    get_market_data errOracle "AAPL" 100 = none ∧
    fit_statistical_model errOracle goodReturns (some 1) = none ∧
    generate_trading_signal errOracle strat1 "AAPL" = none ∧
    generate_trading_signal fitErrOracle strat1 "AAPL" = none ∧
    execute_paper_trade persistErrOracle strat1 (some sigGood) = (none, strat1) ∧
    run_strategy errOracle 1 = none ∧
    run_strategy fitErrOracle 1 = none := by
  have hids : ∀ s, fitErrOracle.lookupStrategy = .ok (some s) → s.id ≠ 0 := by
    intro s hs
    have hs' : strat1 = s := by
      simpa [fitErrOracle, goodOracle] using hs
    rw [← hs']
    norm_num [strat1]
  exact ⟨(C4_exceptions_surface_as_none "boom").1 errOracle "AAPL" 100 rfl rfl,
    (C4_exceptions_surface_as_none "boom").2.2.1 errOracle goodReturns (some 1)
      (by decide) rfl,
    (C4_exceptions_surface_as_none "boom").2.2.2.1 errOracle strat1 "AAPL" rfl rfl,
    (C4_exceptions_surface_as_none "boom").2.2.2.2.2.1 fitErrOracle strat1 "AAPL"
      (by norm_num [strat1]) rfl,
    (C4_exceptions_surface_as_none "boom").2.2.2.2.2.2.1 persistErrOracle strat1
      (some sigGood) rfl,
    (C4_exceptions_surface_as_none "boom").2.2.2.2.2.2.2.1 errOracle 1 rfl rfl,
    (C4_exceptions_surface_as_none "boom").2.2.2.2.2.2.2.2 fitErrOracle 1 hids rfl⟩

/-- Every generated buy signal carries a positive predicted return and
every generated sell signal a negative one (the very conditions of the
branches that set the action). -/
lemma gen_signal_sound (o : Oracle) (s : TradingStrategy) (symbol : String)
    (sig : Signal) (h : generate_trading_signal o s symbol = some sig) :
    (sig.action = TradeAction.buy → sig.predicted_return > 0) ∧
    (sig.action = TradeAction.sell → sig.predicted_return < 0) := by
  cases hmd : get_market_data o symbol 100 with
  | none =>
    simp only [generate_trading_signal, hmd] at h
    exact absurd h (by simp)
  | some md =>
  cases hrs : calculate_returns (some md) with
  | none =>
    simp only [generate_trading_signal, hmd, hrs] at h
    exact absurd h (by simp)
  | some rs =>
  cases hfit : fit_statistical_model o rs (some s.id) with
  | none =>
    simp only [generate_trading_signal, hmd, hrs, hfit] at h
    exact absurd h (by simp)
  | some m =>
  simp only [generate_trading_signal, hmd, hrs, hfit, predict_next_return] at h
  split_ifs at h with h1 h2
  · simp only [Option.some.injEq] at h
    have hact : sig.action = TradeAction.buy := (congrArg Signal.action h).symm
    have hpr : sig.predicted_return = m.intercept + m.slope * (rs.length : ℚ) :=
      (congrArg Signal.predicted_return h).symm
    constructor
    · intro _
      rw [hpr]
      exact h1.1
    · intro hc
      rw [hact] at hc
      exact absurd hc (by simp)
  · simp only [Option.some.injEq] at h
    have hact : sig.action = TradeAction.sell := (congrArg Signal.action h).symm
    have hpr : sig.predicted_return = m.intercept + m.slope * (rs.length : ℚ) :=
      (congrArg Signal.predicted_return h).symm
    constructor
    · intro hc
      rw [hact] at hc
      exact absurd hc (by simp)
    · intro _
      rw [hpr]
      exact h2.1
  · simp only [Option.some.injEq] at h
    have hact : sig.action = TradeAction.hold := (congrArg Signal.action h).symm
    constructor
    · intro hc
      rw [hact] at hc
      exact absurd hc (by simp)
    · intro hc
      rw [hact] at hc
      exact absurd hc (by simp)

/-- Executing any signal that is sound in the sense of `gen_signal_sound`
preserves the invariant `winning_trades = total_trades`: either both
counters stay or both are incremented. -/
lemma exec_preserves_winEq (o : Oracle) (s : TradingStrategy) (sigOpt : Option Signal)
    (hok : ∀ sig, sigOpt = some sig →
      (sig.action = TradeAction.buy → sig.predicted_return > 0) ∧
      (sig.action = TradeAction.sell → sig.predicted_return < 0))
    (hinv : s.winning_trades = s.total_trades) :
    (execute_paper_trade o s sigOpt).2.winning_trades =
      (execute_paper_trade o s sigOpt).2.total_trades := by
  cases sigOpt with
  | none => exact hinv
  | some sig =>
    obtain ⟨hb, hsell⟩ := hok sig rfl
    by_cases ha : sig.action = TradeAction.hold
    · simp only [execute_paper_trade, if_pos ha]
      exact hinv
    · simp only [execute_paper_trade, if_neg ha]
      cases hp : currentPriceE o with
      | error er => exact hinv
      | ok p =>
        cases hpt : o.persistTrade with
        | error er => exact hinv
        | ok u =>
          cases hsig : sig.action with
          | hold => exact absurd hsig ha
          | buy =>
            have hpr := hb hsig
            cases hsc : o.statsCommit with
            | error er =>
              simp only [hsig, hpr, and_true, if_pos, true_and]
              simp [hpr, hinv]
            | ok v =>
              simp only [hsig, hpr, and_true, if_pos, true_and]
              simp [hpr, hinv]
          | sell =>
            have hpr := hsell hsig
            cases hsc : o.statsCommit with
            | error er =>
              simp [hsig, hpr, hinv]
            | ok v =>
              simp [hsig, hpr, hinv]

/-- Folding generate-then-execute steps preserves
`winning_trades = total_trades`. -/
lemma stepStrategy_foldl_invariant (steps : List (Oracle × Oracle × String))
    (s0 : TradingStrategy) (h : s0.winning_trades = s0.total_trades) :
    (steps.foldl stepStrategy s0).winning_trades =
      (steps.foldl stepStrategy s0).total_trades := by
  induction steps generalizing s0 with
  | nil => exact h
  | cons st rest ih =>
    simp only [List.foldl_cons]
    apply ih
    unfold stepStrategy
    apply exec_preserves_winEq
    · intro sig hsig
      exact gen_signal_sound st.1 s0 st.2.2 sig hsig
    · exact h

/-- C8: starting from zero counters, after any sequence of
generate-then-execute runs the number of winning trades equals the number
of total trades — a buy signal always carries a positive predicted return
and a sell signal a negative one, so every booked trade bumps both
counters — and hence `calculate_win_rate` is 100 whenever any trade was
booked. -/
theorem C8_win_rate_always_100 (steps : List (Oracle × Oracle × String))
    (s0 : TradingStrategy) (h0 : s0.total_trades = 0) (h1 : s0.winning_trades = 0) :
    (steps.foldl stepStrategy s0).winning_trades =
      (steps.foldl stepStrategy s0).total_trades ∧
    (0 < (steps.foldl stepStrategy s0).total_trades →
      (steps.foldl stepStrategy s0).calculate_win_rate = 100) := by
  have hw := stepStrategy_foldl_invariant steps s0 (by rw [h0, h1])
  refine ⟨hw, ?_⟩
  intro hpos
  rw [TradingStrategy.calculate_win_rate, if_neg (by omega), hw]
  have hne : (((steps.foldl stepStrategy s0).total_trades : ℚ)) ≠ 0 := by
    exact_mod_cast Nat.pos_iff_ne_zero.mp hpos
  rw [div_self hne, one_mul]

/-- Witness for C8 at a concrete input: one generate-then-execute run of
`strat1` under `goodOracle` books one winning trade, and the win rate is
100. -/
theorem C8_witness :
    strat1.total_trades = 0 ∧ strat1.winning_trades = 0 ∧
    [(goodOracle, goodOracle, "AAPL")].foldl stepStrategy strat1 = strat1After ∧
    strat1After.winning_trades = strat1After.total_trades ∧
    0 < strat1After.total_trades ∧
    strat1After.calculate_win_rate = 100 := by
  have hfold : [(goodOracle, goodOracle, "AAPL")].foldl stepStrategy strat1 = strat1After := by
    simp only [List.foldl_cons, List.foldl_nil, stepStrategy, gen_goodOracle, exec_goodOracle]
  have h := C8_win_rate_always_100 [(goodOracle, goodOracle, "AAPL")] strat1 rfl rfl
  rw [hfold] at h
  have hpos : 0 < strat1After.total_trades := by norm_num [strat1After, strat1]
  exact ⟨rfl, rfl, hfold, h.1, hpos, h.2 hpos⟩
